import Mathlib

/-!
Shallow embedding of `src/adapters/shared/llmChatTemplates.ts` and of the
instrumentation configuration module of the bee-agent-framework repository.

The chat-template registry is a JS object literal mapping model names to
`Template` values.  We embed it as its own insertion-ordered entries together
with its current prototype, and the operations mirror the JS object semantics
the source relies on: the `in` operator consults the whole prototype chain
(so inherited `Object.prototype` names such as `toString` are visible),
property reads return the own entry or the inherited member, assignment
replaces an existing own key in place, appends a new own key, or — for the
`__proto__` accessor — replaces the prototype, and `Object.keys` lists only
the own keys in insertion order.  Inherited members (native functions, or
template fields after a `__proto__` override) are abstracted by their name:
they are never registry templates, which is all the properties here need.
`has` reproduces `Boolean(model && model in registry)`, where an empty string
is falsy.  Errors become an explicit inductive type carrying the same data the
`ValueError`s carry (for `get`, the `validModels` context list).

The `PromptTemplate` rendering engine and `parseEnv` live outside the provided
sources; they are modelled from the spec where noted.
-/

namespace BeeChatTemplates

/-- A chat message: a role tag and a text content, as in `BaseMessage`. -/
structure BaseMessage where
  role : String
  text : String
deriving DecidableEq, Repr

/-- The `parameters` field of a `Template`. -/
structure TemplateParameters where
  stop_sequence : List String
deriving DecidableEq, Repr

/-- One conditional/repeated role section of a chat template: the literal text
emitted before and after each list element bound to `name`. -/
structure SectionSpec where
  name : String
  pre : String
  post : String
deriving DecidableEq, Repr

/-- Modelled from the spec: the external `PromptTemplate` component consumes
"conditional sections keyed by boolean/array truthiness, repeated-section
iteration".  The chat templates of this module all have the shape of a single
repeated `messages` section containing one section per role, followed by a
literal tail; we capture exactly that shape. -/
structure PromptTemplateData where
  sections : List SectionSpec
  tail : String
deriving DecidableEq, Repr

/-- The `Template` interface: a prompt template, the role mapping its
`messagesToPrompt` closure was built from (`messagesToPromptFactory`'s
`rolesOverride` argument), and the generation parameters. -/
structure Template where
  template : PromptTemplateData
  rolesOverride : List (String × Option String)
  parameters : TemplateParameters
deriving DecidableEq, Repr

/-- The default role record of `messagesToPromptFactory`, before the spread of
`rolesOverride`; a `none` value is JS `undefined`. -/
def defaultRoles : List (String × Option String) :=
  [("system", some "system"), ("user", some "user"), ("assistant", some "assistant")]

/-- JS object spread of `extra` over `base`: keys of `base` keep their
position, with the value from `extra` when `extra` binds the key; keys only in
`extra` follow in `extra`'s order. -/
def spreadRecord (base extra : List (String × Option String)) :
    List (String × Option String) :=
  (base.map (fun kv =>
    match extra.lookup kv.1 with
    | some v => (kv.1, v)
    | none => kv))
  ++ extra.filter (fun kv => (base.lookup kv.1).isNone)

/-- The pickBy-isDefined step: keep only the entries whose value is defined,
preserving order. -/
def pickDefined (l : List (String × Option String)) : List (String × String) :=
  l.filterMap (fun kv => kv.2.map (fun v => (kv.1, v)))

/-- The `roles` record computed by `messagesToPromptFactory`: the default
roles spread with `rolesOverride`, filtered by `isDefined`. -/
def mkRoles (rolesOverride : List (String × Option String)) : List (String × String) :=
  pickDefined (spreadRecord defaultRoles rolesOverride)

/-- The mapValues step of `messagesToPromptFactory`:
the record handed to the template for one message — one bucket per entry of
`roles`, holding the message text when the entry's role value equals the
message's role. -/
def groupMessage (roles : List (String × String)) (m : BaseMessage) :
    List (String × List String) :=
  roles.map (fun kv => (kv.1, if m.role == kv.2 then [m.text] else []))

/-- The map over `messages`: the list of per-message records, in input order. -/
def groupMessages (roles : List (String × String)) (messages : List BaseMessage) :
    List (List (String × List String)) :=
  messages.map (groupMessage roles)

/-- Modelled from the spec: a section's variable that the record does not bind
renders as the empty bucket. -/
def lookupBucket (record : List (String × List String)) (name : String) : List String :=
  (record.lookup name).getD []

/-- Modelled from the spec: a repeated section emits its body once per element
of the bound list, the element substituted between the literal `pre` and
`post`. -/
def renderTexts (pre post : String) : List String → String
  | [] => ""
  | t :: ts => pre ++ t ++ post ++ renderTexts pre post ts

/-- Modelled from the spec: the body of the `messages` section renders each
role section in template order against one message record. -/
def renderRecord (sections : List SectionSpec) (record : List (String × List String)) :
    String :=
  match sections with
  | [] => ""
  | s :: rest => renderTexts s.pre s.post (lookupBucket record s.name)
      ++ renderRecord rest record

/-- Modelled from the spec: the render call iterates the `messages` section
over the records and then emits the template's literal tail. -/
def renderPrompt (tpl : PromptTemplateData) : List (List (String × List String)) → String
  | [] => tpl.tail
  | r :: rs => renderRecord tpl.sections r ++ renderPrompt tpl rs

/-- The composite `messagesToPrompt(template)(messages)` pipeline of the
source: group the messages with the template's role mapping, then render. -/
def messagesToPrompt (t : Template) (messages : List BaseMessage) : String :=
  renderPrompt t.template (groupMessages (mkRoles t.rolesOverride) messages)

/-- The built-in `llama31` template: llama3 headers plus an `ipython` role
section, stop sequence the end-of-turn id marker. -/
def llama31 : Template :=
  { template :=
      { sections :=
          [ { name := "system",
              pre := "<|begin_of_text|><|start_header_id|>system<|end_header_id|>\n\n",
              post := "<|eot_id|>" },
            { name := "user",
              pre := "<|start_header_id|>user<|end_header_id|>\n\n",
              post := "<|eot_id|>" },
            { name := "assistant",
              pre := "<|start_header_id|>assistant<|end_header_id|>\n\n",
              post := "<|eot_id|>" },
            { name := "ipython",
              pre := "<|start_header_id|>ipython<|end_header_id|>\n\n",
              post := "<|eot_id|>" } ],
        tail := "<|start_header_id|>assistant<|end_header_id|>\n" },
    rolesOverride := [("ipython", some "ipython")],
    parameters := { stop_sequence := ["<|eot_id|>"] } }

/-- The built-in `llama3` template: as `llama31` without the `ipython`
section, default roles only. -/
def llama3 : Template :=
  { template :=
      { sections :=
          [ { name := "system",
              pre := "<|begin_of_text|><|start_header_id|>system<|end_header_id|>\n\n",
              post := "<|eot_id|>" },
            { name := "user",
              pre := "<|start_header_id|>user<|end_header_id|>\n\n",
              post := "<|eot_id|>" },
            { name := "assistant",
              pre := "<|start_header_id|>assistant<|end_header_id|>\n\n",
              post := "<|eot_id|>" } ],
        tail := "<|start_header_id|>assistant<|end_header_id|>\n" },
    rolesOverride := [],
    parameters := { stop_sequence := ["<|eot_id|>"] } }

/-- The built-in `qwen2` template: im_start/im_end chat markup, default roles.
The unbound variable reference after each end marker renders as empty. -/
def qwen2 : Template :=
  { template :=
      { sections :=
          [ { name := "system",
              pre := "<|im_start|>system\n",
              post := "<|im_end|>\n" },
            { name := "user",
              pre := "<|im_start|>user\n",
              post := "<|im_end|>\n" },
            { name := "assistant",
              pre := "<|im_start|>assistant\n",
              post := "<|im_end|>\n" } ],
        tail := "<|im_start|>assistant\n" },
    rolesOverride := [],
    parameters := { stop_sequence := ["<|im_end|>"] } }

/-- The standard property names of `Object.prototype`, visible to the JS `in`
operator on any plain object literal whose prototype chain is intact. -/
def objectProtoNames : List String :=
  ["constructor", "hasOwnProperty", "isPrototypeOf", "propertyIsEnumerable",
   "toLocaleString", "toString", "valueOf", "__defineGetter__", "__defineSetter__",
   "__lookupGetter__", "__lookupSetter__", "__proto__"]

/-- The own property names of a `Template` object literal; they become
inherited names of the registry once an assignment to `__proto__` has made a
template object the registry's prototype. -/
def templateOwnKeys : List String :=
  ["template", "messagesToPrompt", "parameters"]

/-- The property names the registry object inherits: those of
`Object.prototype` while the prototype is intact (`none`), plus the template
object's own keys after a `__proto__` assignment replaced the prototype with a
template (whose own prototype is again `Object.prototype`). -/
def protoChainNames (proto : Option Template) : List String :=
  match proto with
  | none => objectProtoNames
  | some _ => templateOwnKeys ++ objectProtoNames

/-- The registry object: its own entries (insertion-ordered, unique keys) and
its current prototype — `none` for the initial `Object.prototype`, `some t`
after an assignment to the `__proto__` key replaced the prototype with the
template `t`. -/
structure Registry where
  own : List (String × Template)
  proto : Option Template
deriving DecidableEq, Repr

/-- The initial `LLMChatTemplates.registry` object literal with the three
built-in entries and the intact prototype. -/
def registry : Registry :=
  { own := [("llama3.1", llama31), ("llama3", llama3), ("qwen2", qwen2)],
    proto := none }

/-- JS `model in this.registry`: the `in` operator consults the whole
prototype chain, so a name is visible when it is an own key of the registry or
an inherited property name such as `toString`. -/
def keyIn (reg : Registry) (model : String) : Bool :=
  (reg.own.lookup model).isSome || (protoChainNames reg.proto).contains model

/-- The value a property read `this.registry[model]` yields: an own entry
holds a stored template; a name found only on the prototype chain yields the
inherited member of that name (a native function such as
`Object.prototype.toString`, or a template field after a `__proto__`
override), which is not a registry template and is abstracted here by its
name. -/
inductive RegistryValue where
  | tmpl (t : Template)
  | protoMember (name : String)
deriving DecidableEq, Repr

/-- JS property read on the registry object: own entries shadow the prototype
chain; absent everywhere means `undefined`. -/
def readProp (reg : Registry) (model : String) : Option RegistryValue :=
  match reg.own.lookup model with
  | some t => some (RegistryValue.tmpl t)
  | none =>
    if (protoChainNames reg.proto).contains model then
      some (RegistryValue.protoMember model)
    else
      none

/-- JS assignment to an own data slot of the object: replace the value of an
existing own key in place, or append a new own key at the end. -/
def setOwn (own : List (String × Template)) (model : String) (t : Template) :
    List (String × Template) :=
  if (own.lookup model).isSome then
    own.map (fun kv => if kv.1 == model then (model, t) else kv)
  else
    own ++ [(model, t)]

/-- JS property assignment `this.registry[model] = template`: for every name
but `__proto__` it creates or overwrites an own data property (inherited data
properties such as `toString` are shadowed, not modified); assignment to
`__proto__` invokes the inherited accessor's setter and replaces the
registry's prototype with the template object instead of creating an own key. -/
def registrySet (reg : Registry) (model : String) (t : Template) : Registry :=
  if model == "__proto__" then
    { own := reg.own, proto := some t }
  else
    { own := setOwn reg.own model t, proto := reg.proto }

/-- The two `ValueError` shapes the module throws, with the data they carry:
the conflicting model name, or the missing model name together with the
`validModels` context list. -/
inductive RegistryError where
  | alreadyExists (model : String)
  | notFound (model : String) (validModels : List String)
deriving DecidableEq, Repr

/-- JS `Object.keys(registry)`: the own enumerable keys in insertion order;
inherited names are never listed. -/
def registryKeys (reg : Registry) : List String :=
  reg.own.map Prod.fst

/-- The method `LLMChatTemplates.register(model, template, override)`, with the registry
state threaded explicitly: the guard throws before the assignment runs, so on
error the returned state is the input state unchanged. -/
def register (reg : Registry) (model : String) (t : Template) (override : Bool) :
    Except RegistryError Unit × Registry :=
  if keyIn reg model && !override then
    (Except.error (RegistryError.alreadyExists model), reg)
  else
    (Except.ok (), registrySet reg model t)

/-- The method `LLMChatTemplates.has(model)`: the JS truthiness test makes the empty
model name falsy before the `in` test even runs. -/
def has (reg : Registry) (model : String) : Bool :=
  !(model == "") && keyIn reg model

/-- Whether `pat` occurs at the head of the character list. -/
def leadsWith : List Char → List Char → Bool
  | [], _ => true
  | _ :: _, [] => false
  | a :: as, b :: bs => a == b && leadsWith as bs

/-- Whether `pat` occurs as a contiguous run somewhere in the character list: the
check a stop-sequence marker performs on model output. -/
def occursIn (pat : List Char) : List Char → Bool
  | [] => pat.isEmpty
  | c :: rest => leadsWith pat (c :: rest) || occursIn pat rest

/-- The method `LLMChatTemplates.get(model)`: guarded by `has`, then the raw
property read is returned; on failure the error context carries the current
own-key list.  (When `has` holds the read always yields a value, own or
inherited, so the inner fallback is unreachable.) -/
def get (reg : Registry) (model : String) : Except RegistryError RegistryValue :=
  if has reg model then
    match readProp reg model with
    | some v => Except.ok v
    | none => Except.error (RegistryError.notFound model (registryKeys reg))
  else
    Except.error (RegistryError.notFound model (registryKeys reg))

end BeeChatTemplates

namespace BeeInstrumentation

/-- Modelled from the spec: `parseEnv(name, z.string(), fallback)` from the
external env utilities returns the raw environment value when the variable is
set, and the fallback otherwise.  The environment is passed explicitly as the
optional value of the one variable read. -/
def parseEnvString (env : Option String) (fallback : String) : String :=
  env.getD fallback

/-- JS `split` with a single-character separator: the runs of characters
between separator occurrences, in order, empty runs included — splitting the
empty string yields one empty run, as in JS. -/
def splitCharAux (sep : Char) : List Char → List Char → List String
  | [], acc => [String.mk acc.reverse]
  | c :: rest, acc =>
    if c = sep then String.mk acc.reverse :: splitCharAux sep rest []
    else splitCharAux sep rest (c :: acc)

/-- JS `value.split(sep)` for a one-character separator string. -/
def splitChar (s : String) (sep : Char) : List String :=
  splitCharAux sep s.toList []

/-- The constant `INSTRUMENTATION_IGNORED_KEYS`: the value of
`BEE_FRAMEWORK_INSTRUMENTATION_IGNORED_KEYS` (default empty string), split on
commas, entries of zero length dropped. -/
def instrumentationIgnoredKeys (env : Option String) : List String :=
  (splitChar (parseEnvString env "") ',').filter (fun item => item.length > 0)

end BeeInstrumentation

namespace BeeChatTemplates

theorem lookup_cons_self {β : Type} (k : String) (v : β) (l : List (String × β)) :
    List.lookup k ((k, v) :: l) = some v := by
  simp [List.lookup_cons]

theorem lookup_cons_ne {β : Type} (a k : String) (v : β) (l : List (String × β))
    (h : a ≠ k) : List.lookup a ((k, v) :: l) = List.lookup a l := by
  rw [List.lookup_cons, beq_eq_false_iff_ne.mpr h]

theorem lookup_append_of_none {β : Type} (l1 l2 : List (String × β)) (a : String)
    (h : l1.lookup a = none) : (l1 ++ l2).lookup a = l2.lookup a := by
  induction l1 with
  | nil => rfl
  | cons hd tl ih =>
    obtain ⟨k, v⟩ := hd
    by_cases hk : a = k
    · subst hk
      rw [lookup_cons_self] at h
      exact absurd h (by simp)
    · rw [List.cons_append, lookup_cons_ne a k v _ hk]
      rw [lookup_cons_ne a k v tl hk] at h
      exact ih h

theorem lookup_append_of_some {β : Type} (l1 l2 : List (String × β)) (a : String)
    (v : β) (h : l1.lookup a = some v) : (l1 ++ l2).lookup a = some v := by
  induction l1 with
  | nil => simp at h
  | cons hd tl ih =>
    obtain ⟨k, w⟩ := hd
    by_cases hk : a = k
    · subst hk
      rw [lookup_cons_self] at h
      rw [List.cons_append, lookup_cons_self]
      exact h
    · rw [List.cons_append, lookup_cons_ne a k w _ hk]
      rw [lookup_cons_ne a k w tl hk] at h
      exact ih h

theorem lookup_mapReplace_self (own : List (String × Template)) (m : String)
    (t : Template) (h : (own.lookup m).isSome = true) :
    (own.map (fun kv => if kv.1 == m then (m, t) else kv)).lookup m = some t := by
  induction own with
  | nil => simp at h
  | cons hd tl ih =>
    obtain ⟨k, v⟩ := hd
    by_cases hk : k = m
    · subst hk
      rw [List.map_cons, if_pos (by simp : (((k, v).1 == k) = true))]
      exact lookup_cons_self k t _
    · rw [List.map_cons, if_neg (by simp [hk] : ¬ (((k, v).1 == m) = true)),
        lookup_cons_ne m k v _ (fun hmk => hk hmk.symm)]
      rw [lookup_cons_ne m k v tl (fun hmk => hk hmk.symm)] at h
      exact ih h

theorem lookup_mapReplace_ne (own : List (String × Template)) (m : String)
    (t : Template) (m' : String) (h : m' ≠ m) :
    (own.map (fun kv => if kv.1 == m then (m, t) else kv)).lookup m'
      = own.lookup m' := by
  induction own with
  | nil => rfl
  | cons hd tl ih =>
    obtain ⟨k, v⟩ := hd
    by_cases hk : k = m
    · subst hk
      rw [List.map_cons, if_pos (by simp : (((k, v).1 == k) = true)),
        lookup_cons_ne m' k t _ h, lookup_cons_ne m' k v tl h]
      exact ih
    · rw [List.map_cons, if_neg (by simp [hk] : ¬ (((k, v).1 == m) = true))]
      by_cases hmk : m' = k
      · subst hmk
        rw [lookup_cons_self, lookup_cons_self]
      · rw [lookup_cons_ne m' k v _ hmk, lookup_cons_ne m' k v tl hmk]
        exact ih

theorem lookup_setOwn_self (own : List (String × Template)) (m : String)
    (t : Template) : (setOwn own m t).lookup m = some t := by
  unfold setOwn
  by_cases h : (own.lookup m).isSome = true
  · rw [if_pos h]
    exact lookup_mapReplace_self own m t h
  · rw [if_neg h]
    have hnone : own.lookup m = none := by
      cases hl : own.lookup m with
      | none => rfl
      | some v => rw [hl] at h; simp at h
    rw [lookup_append_of_none own _ m hnone]
    exact lookup_cons_self m t []

theorem lookup_setOwn_ne (own : List (String × Template)) (m : String)
    (t : Template) (m' : String) (h : m' ≠ m) :
    (setOwn own m t).lookup m' = own.lookup m' := by
  unfold setOwn
  by_cases hk : (own.lookup m).isSome = true
  · rw [if_pos hk]
    exact lookup_mapReplace_ne own m t m' h
  · rw [if_neg hk]
    cases hl : own.lookup m' with
    | none =>
      rw [lookup_append_of_none own _ m' hl, lookup_cons_ne m' m t [] h]
      rfl
    | some v => exact lookup_append_of_some own _ m' v hl

theorem registrySet_own_of_ne (reg : Registry) (m : String) (t : Template)
    (h : m ≠ "__proto__") :
    (registrySet reg m t).own = setOwn reg.own m t := by
  unfold registrySet
  rw [if_neg (by simp [h] : ¬ ((m == "__proto__") = true))]

theorem registrySet_proto_of_ne (reg : Registry) (m : String) (t : Template)
    (h : m ≠ "__proto__") :
    (registrySet reg m t).proto = reg.proto := by
  unfold registrySet
  rw [if_neg (by simp [h] : ¬ ((m == "__proto__") = true))]

theorem protoChain_contains_proto (p : Option Template) :
    (protoChainNames p).contains "__proto__" = true := by
  cases p with
  | none => decide
  | some t =>
    show (templateOwnKeys ++ objectProtoNames).contains "__proto__" = true
    decide

theorem keyIn_false_parts (reg : Registry) (m : String) (h : keyIn reg m = false) :
    reg.own.lookup m = none ∧ (protoChainNames reg.proto).contains m = false := by
  unfold keyIn at h
  constructor
  · cases hl : reg.own.lookup m with
    | none => rfl
    | some v => rw [hl] at h; simp at h
  · cases hc : (protoChainNames reg.proto).contains m
    · rfl
    · rw [hc] at h; simp at h

theorem get_ok_of_own (reg : Registry) (m : String) (t : Template)
    (hm : m ≠ "") (h : reg.own.lookup m = some t) :
    get reg m = Except.ok (RegistryValue.tmpl t) := by
  unfold get has keyIn readProp
  rw [h]
  simp [hm]

theorem get_error_of (reg : Registry) (m : String)
    (h : m = "" ∨ (reg.own.lookup m = none
      ∧ (protoChainNames reg.proto).contains m = false)) :
    get reg m = Except.error (RegistryError.notFound m (registryKeys reg)) := by
  unfold get has keyIn
  rcases h with h | ⟨h1, h2⟩
  · subst h
    simp
  · rw [h1, h2]
    simp

theorem get_inherited_of (reg : Registry) (m : String)
    (hm : m ≠ "") (h1 : reg.own.lookup m = none)
    (h2 : (protoChainNames reg.proto).contains m = true) :
    get reg m = Except.ok (RegistryValue.protoMember m) := by
  unfold get has keyIn readProp
  rw [h1, h2]
  simp [hm]
end BeeChatTemplates

namespace BeeChatTemplates

/-- C1 counterexample: `register("toString", t, false)` throws the
AlreadyExists-style error although `toString` is not a key of the registry —
not built-in, never registered, absent from the key list — because the JS `in`
guard sees the inherited `Object.prototype.toString`; so the claim's
insert-when-not-a-key branch fails on the program. -/
theorem register_not_a_key_counterexample :
    registry.own.lookup "toString" = none ∧
    ("toString" ∉ registryKeys registry) ∧
    register registry "toString" llama3 false
      = (Except.error (RegistryError.alreadyExists "toString"), registry) :=
  ⟨rfl, by decide, rfl⟩

/-- C1 (amended): `register(m, t, override)` throws the AlreadyExists-style
error when `m` is visible to the JS `in` operator — an own registry key or an
inherited prototype property name such as `toString` — and `override` is
false; otherwise, for every name except `__proto__` (whose inherited slot is
the prototype setter rather than a data slot), it creates or overwrites the
own entry under `m` unconditionally, leaving every other own entry and the
prototype unchanged. -/
theorem register_in_guard_or_insert (reg : Registry) (m : String) (t : Template)
    (override : Bool) :
    (keyIn reg m = true → override = false →
      register reg m t override
        = (Except.error (RegistryError.alreadyExists m), reg)) ∧
    ((keyIn reg m = false ∨ override = true) → m ≠ "__proto__" →
      (register reg m t override).1 = Except.ok () ∧
      (register reg m t override).2.own.lookup m = some t ∧
      (∀ m', m' ≠ m →
        (register reg m t override).2.own.lookup m' = reg.own.lookup m') ∧
      (register reg m t override).2.proto = reg.proto) := by
  constructor
  · intro hk ho
    subst ho
    simp [register, hk]
  · intro h hm
    have hcond : (keyIn reg m && !override) = false := by
      rcases h with h | h
      · simp [h]
      · simp [h]
    have hreg : register reg m t override = (Except.ok (), registrySet reg m t) := by
      simp [register, hcond]
    rw [hreg]
    refine ⟨rfl, ?_, fun m' hm' => ?_, registrySet_proto_of_ne reg m t hm⟩
    · rw [registrySet_own_of_ne reg m t hm]
      exact lookup_setOwn_self reg.own m t
    · rw [registrySet_own_of_ne reg m t hm]
      exact lookup_setOwn_ne reg.own m t m' hm'

/-- Witness for C1 (amended): registering the inherited name `toString`
without override fails; registering the fresh key `granite` succeeds and
stores the template as an own entry. -/
theorem register_in_guard_or_insert_witness :
    register registry "toString" llama3 false
      = (Except.error (RegistryError.alreadyExists "toString"), registry) ∧
    (register registry "granite" qwen2 false).1 = Except.ok () ∧
    (register registry "granite" qwen2 false).2.own.lookup "granite" = some qwen2 := by
  refine ⟨?_, ?_, ?_⟩
  · exact (register_in_guard_or_insert registry "toString" llama3 false).1
      (by decide) rfl
  · exact ((register_in_guard_or_insert registry "granite" qwen2 false).2
      (Or.inl (by decide)) (by decide)).1
  · exact ((register_in_guard_or_insert registry "granite" qwen2 false).2
      (Or.inl (by decide)) (by decide)).2.1

/-- C4 counterexample: `has("toString")` is true on the built-in registry
although `toString` is not a key — neither built-in nor ever registered —
because the JS `in` test consults the prototype chain; so the claimed iff
fails on the program. -/
theorem has_proto_name_counterexample :
    has registry "toString" = true ∧
    registry.own.lookup "toString" = none ∧
    ("toString" ∉ registryKeys registry) :=
  ⟨rfl, rfl, by decide⟩

/-- C4 (amended): `has(m)` is true iff `m` is non-empty and visible to the JS
`in` operator: an own key of the registry (built-in or registered and not
removed) or an inherited property name of the prototype chain such as
`toString`. -/
theorem has_iff_nonempty_in (reg : Registry) (m : String) :
    has reg m = true ↔
      (m ≠ "" ∧ ((reg.own.lookup m).isSome = true
        ∨ (protoChainNames reg.proto).contains m = true)) := by
  unfold has keyIn
  simp

/-- C5: each built-in model name (`llama3.1`, `llama3`, `qwen2`) is
`has`-visible, `get` returns its template, and that template's stop-sequence
list is non-empty. -/
theorem builtin_models_registered :
    (has registry "llama3.1" = true ∧
      get registry "llama3.1" = Except.ok (RegistryValue.tmpl llama31) ∧
      llama31.parameters.stop_sequence ≠ []) ∧
    (has registry "llama3" = true ∧
      get registry "llama3" = Except.ok (RegistryValue.tmpl llama3) ∧
      llama3.parameters.stop_sequence ≠ []) ∧
    (has registry "qwen2" = true ∧
      get registry "qwen2" = Except.ok (RegistryValue.tmpl qwen2) ∧
      qwen2.parameters.stop_sequence ≠ []) :=
  ⟨⟨rfl, rfl, by decide⟩, ⟨rfl, rfl, by decide⟩, ⟨rfl, rfl, by decide⟩⟩

/-- C9: a conflicting `register` call is atomic: it fails with the Conflict
error, returns the input registry unchanged, and every subsequent `get`
returns exactly what it returned before the call. -/
theorem register_conflict_atomic (reg : Registry) (m : String) (t : Template)
    (h : keyIn reg m = true) :
    (register reg m t false).1 = Except.error (RegistryError.alreadyExists m) ∧
    (register reg m t false).2 = reg ∧
    ∀ m', get (register reg m t false).2 m' = get reg m' := by
  have hr : register reg m t false
      = (Except.error (RegistryError.alreadyExists m), reg) := by
    simp [register, h]
  rw [hr]
  exact ⟨rfl, rfl, fun m' => rfl⟩

/-- Witness for C9: re-registering `qwen2` fails and the registry state and
lookups are untouched. -/
theorem register_conflict_atomic_witness :
    (register registry "qwen2" llama3 false).1
      = Except.error (RegistryError.alreadyExists "qwen2") ∧
    (register registry "qwen2" llama3 false).2 = registry ∧
    get (register registry "qwen2" llama3 false).2 "llama3" = get registry "llama3" := by
  refine ⟨?_, ?_, ?_⟩
  · exact (register_conflict_atomic registry "qwen2" llama3 (by decide)).1
  · exact (register_conflict_atomic registry "qwen2" llama3 (by decide)).2.1
  · exact (register_conflict_atomic registry "qwen2" llama3 (by decide)).2.2 "llama3"

/-- C10: registering the empty model name succeeds when it is not yet a key
and stores an own entry, yet `has` stays false on the empty name and `get`
keeps failing with NotFound, so the stored entry is unreachable through the
public API. -/
theorem register_empty_name_invisible (reg : Registry) (t : Template)
    (h : keyIn reg "" = false) :
    (register reg "" t false).1 = Except.ok () ∧
    (register reg "" t false).2.own.lookup "" = some t ∧
    has (register reg "" t false).2 "" = false ∧
    get (register reg "" t false).2 ""
      = Except.error (RegistryError.notFound ""
          (registryKeys (register reg "" t false).2)) ∧
    ∀ v, get (register reg "" t false).2 "" ≠ Except.ok v := by
  have hr : register reg "" t false = (Except.ok (), registrySet reg "" t) := by
    simp [register, h]
  rw [hr]
  have hown : (registrySet reg "" t).own.lookup "" = some t := by
    rw [registrySet_own_of_ne reg "" t (by decide)]
    exact lookup_setOwn_self reg.own "" t
  refine ⟨rfl, hown, rfl, get_error_of _ "" (Or.inl rfl), ?_⟩
  intro v hc
  rw [get_error_of _ "" (Or.inl rfl)] at hc
  exact Except.noConfusion hc

/-- Witness for C10 on the built-in registry with the `qwen2` template. -/
theorem register_empty_name_invisible_witness :
    (register registry "" qwen2 false).1 = Except.ok () ∧
    (register registry "" qwen2 false).2.own.lookup "" = some qwen2 ∧
    has (register registry "" qwen2 false).2 "" = false ∧
    get (register registry "" qwen2 false).2 "" ≠ Except.ok (RegistryValue.tmpl qwen2) := by
  refine ⟨?_, ?_, ?_, ?_⟩
  · exact (register_empty_name_invisible registry qwen2 (by decide)).1
  · exact (register_empty_name_invisible registry qwen2 (by decide)).2.1
  · exact (register_empty_name_invisible registry qwen2 (by decide)).2.2.1
  · exact (register_empty_name_invisible registry qwen2 (by decide)).2.2.2.2
      (RegistryValue.tmpl qwen2)

/-- C2 counterexample, refuting the claim as stated at two concrete inputs:
after successfully registering the empty string it is a registered key, yet
`get` on it fails with NotFound; and `toString` is not a registered key, yet
`get` on it does not fail — it returns the inherited
`Object.prototype.toString` member instead. -/
theorem get_registered_key_counterexample :
    (register registry "" qwen2 false).1 = Except.ok () ∧
    (register registry "" qwen2 false).2.own.lookup "" = some qwen2 ∧
    get (register registry "" qwen2 false).2 ""
      = Except.error (RegistryError.notFound ""
          ["llama3.1", "llama3", "qwen2", ""]) ∧
    registry.own.lookup "toString" = none ∧
    get registry "toString" = Except.ok (RegistryValue.protoMember "toString") :=
  ⟨rfl, rfl, rfl, rfl, rfl⟩

/-- C2 (amended): `get(m)` returns the registered template when `m` is a
non-empty own key of the registry; it fails with the NotFound-style error
carrying the list of all currently registered model names when `m` is empty
(registered or not) or is neither an own key nor an inherited prototype
property name; and for a non-empty name visible only through the prototype
chain it does not fail but returns the inherited prototype member, which is
not a registered template. -/
theorem get_found_or_notFound (reg : Registry) (m : String) :
    (m ≠ "" → ∀ t, reg.own.lookup m = some t →
      get reg m = Except.ok (RegistryValue.tmpl t)) ∧
    ((m = "" ∨ (reg.own.lookup m = none
        ∧ (protoChainNames reg.proto).contains m = false)) →
      get reg m = Except.error (RegistryError.notFound m (registryKeys reg))) ∧
    (m ≠ "" → reg.own.lookup m = none →
      (protoChainNames reg.proto).contains m = true →
      get reg m = Except.ok (RegistryValue.protoMember m)) :=
  ⟨fun hm t h => get_ok_of_own reg m t hm h,
   fun h => get_error_of reg m h,
   fun hm h1 h2 => get_inherited_of reg m hm h1 h2⟩

/-- Witness for C2 (amended): a registered name is found, an unknown
non-prototype name fails listing all registered names, and the inherited name
`toString` yields the prototype member. -/
theorem get_found_or_notFound_witness :
    get registry "llama3" = Except.ok (RegistryValue.tmpl llama3) ∧
    get registry "unknown-model"
      = Except.error (RegistryError.notFound "unknown-model"
          ["llama3.1", "llama3", "qwen2"]) ∧
    get registry "toString" = Except.ok (RegistryValue.protoMember "toString") := by
  refine ⟨?_, ?_, ?_⟩
  · exact (get_found_or_notFound registry "llama3").1 (by decide) llama3 rfl
  · exact (get_found_or_notFound registry "unknown-model").2.1
      (Or.inr ⟨rfl, by decide⟩)
  · exact (get_found_or_notFound registry "toString").2.2 (by decide) rfl (by decide)

/-- C3: registering a fresh non-empty name makes `get` return the registered
template; re-registering it without override fails with the Conflict error and
changes nothing; re-registering with override succeeds and `get` then returns
the new template. -/
theorem register_get_override_roundtrip (reg : Registry) (x : String)
    (t t2 : Template) (hx : x ≠ "")
    (hok : (register reg x t false).1 = Except.ok ()) :
    get (register reg x t false).2 x = Except.ok (RegistryValue.tmpl t) ∧
    register (register reg x t false).2 x t2 false
      = (Except.error (RegistryError.alreadyExists x), (register reg x t false).2) ∧
    (register (register reg x t false).2 x t2 true).1 = Except.ok () ∧
    get (register (register reg x t false).2 x t2 true).2 x
      = Except.ok (RegistryValue.tmpl t2) := by
  have hk : keyIn reg x = false := by
    cases hkk : keyIn reg x
    · rfl
    · rw [show register reg x t false
          = (Except.error (RegistryError.alreadyExists x), reg) by
            simp [register, hkk]] at hok
      exact Except.noConfusion hok
  have hx2 : x ≠ "__proto__" := by
    intro he
    rw [he] at hk
    unfold keyIn at hk
    rw [protoChain_contains_proto reg.proto] at hk
    simp at hk
  have hr1 : register reg x t false = (Except.ok (), registrySet reg x t) := by
    simp [register, hk]
  rw [hr1]
  have hl1 : (registrySet reg x t).own.lookup x = some t := by
    rw [registrySet_own_of_ne reg x t hx2]
    exact lookup_setOwn_self reg.own x t
  have hk1 : keyIn (registrySet reg x t) x = true := by
    unfold keyIn
    rw [hl1]
    rfl
  have hr3 : register (registrySet reg x t) x t2 true
      = (Except.ok (), registrySet (registrySet reg x t) x t2) := by
    simp [register]
  refine ⟨get_ok_of_own _ x t hx hl1, by simp [register, hk1], ?_, ?_⟩
  · rw [hr3]
  · rw [hr3]
    refine get_ok_of_own _ x t2 hx ?_
    rw [registrySet_own_of_ne _ x t2 hx2]
    exact lookup_setOwn_self _ x t2

/-- Witness for C3 at the fresh name `granite`. -/
theorem register_get_override_roundtrip_witness :
    get (register registry "granite" llama3 false).2 "granite"
      = Except.ok (RegistryValue.tmpl llama3) ∧
    register (register registry "granite" llama3 false).2 "granite" qwen2 false
      = (Except.error (RegistryError.alreadyExists "granite"),
         (register registry "granite" llama3 false).2) ∧
    (register (register registry "granite" llama3 false).2 "granite" qwen2 true).1
      = Except.ok () ∧
    get (register (register registry "granite" llama3 false).2 "granite" qwen2 true).2
        "granite" = Except.ok (RegistryValue.tmpl qwen2) :=
  register_get_override_roundtrip registry "granite" llama3 qwen2 (by decide) rfl

end BeeChatTemplates

namespace BeeChatTemplates

theorem lookupBucket_nil_of_forall :
    ∀ (record : List (String × List String)),
      (∀ p ∈ record, p.2 = ([] : List String)) →
      ∀ name, lookupBucket record name = [] := by
  intro record
  induction record with
  | nil => intro _ _; rfl
  | cons hd tl ih =>
    intro h name
    obtain ⟨k, v⟩ := hd
    have hv : v = [] := h (k, v) (List.mem_cons_self _ _)
    subst hv
    by_cases hk : name = k
    · subst hk
      unfold lookupBucket
      rw [lookup_cons_self]
      rfl
    · unfold lookupBucket
      rw [lookup_cons_ne name k _ tl hk]
      exact ih (fun p hp => h p (List.mem_cons_of_mem _ hp)) name

theorem renderRecord_nil_of_forall (record : List (String × List String))
    (h : ∀ p ∈ record, p.2 = ([] : List String)) :
    ∀ sections, renderRecord sections record = "" := by
  intro sections
  induction sections with
  | nil => rfl
  | cons s rest ih =>
    simp [renderRecord, lookupBucket_nil_of_forall record h s.name, renderTexts, ih]

/-- C6 counterexample: under the role mapping that sends the extra bucket name
`foo` to the role `assistant`, the text of an assistant message is placed in
the bucket named `foo`, whose name does not match the message's role — so the
grouping does not place texts only in the bucket whose name matches the role. -/
theorem grouping_bucket_name_counterexample :
    ("foo", ["hi"]) ∈ groupMessage (mkRoles [("foo", some "assistant")])
        ⟨"assistant", "hi"⟩ ∧
    "foo" ≠ "assistant" := by
  constructor
  · decide
  · decide

/-- C6 (amended): grouping preserves order — record `i` is exactly the record
of message `i`; within a record, the bucket for a mapping entry holds the
message's text exactly when the entry's mapped role value equals the message's
role (the bucket's own name plays no part in the test), and is empty
otherwise; a message whose role is not among the mapped role values
contributes to no bucket, and its record renders to the empty string in every
section list. -/
theorem grouping_by_role_value (o : List (String × Option String))
    (ms : List BaseMessage) :
    (∀ i : Nat, (groupMessages (mkRoles o) ms)[i]?
        = (ms[i]?).map (groupMessage (mkRoles o))) ∧
    (∀ m : BaseMessage, ∀ name role, (name, role) ∈ mkRoles o →
        (name, if m.role == role then [m.text] else [])
          ∈ groupMessage (mkRoles o) m) ∧
    (∀ m : BaseMessage, ∀ name texts, (name, texts) ∈ groupMessage (mkRoles o) m →
        ∃ role, (name, role) ∈ mkRoles o
          ∧ texts = if m.role == role then [m.text] else []) ∧
    (∀ m : BaseMessage, (∀ p ∈ mkRoles o, p.2 ≠ m.role) →
        ∀ sections, renderRecord sections (groupMessage (mkRoles o) m) = "") := by
  refine ⟨?_, ?_, ?_, ?_⟩
  · intro i
    exact List.getElem?_map _ ms i
  · intro m name role hmem
    exact List.mem_map_of_mem _ hmem
  · intro m name texts hmem
    obtain ⟨⟨n, r⟩, hnr, heq⟩ := List.mem_map.mp hmem
    injection heq with h1 h2
    exact ⟨r, h1 ▸ hnr, h2.symm⟩
  · intro m hall sections
    refine renderRecord_nil_of_forall _ ?_ sections
    intro p hp
    rcases List.mem_map.mp hp with ⟨⟨n, r⟩, hnr, rfl⟩
    have hr : r ≠ m.role := hall (n, r) hnr
    simp [beq_eq_false_iff_ne.mpr (Ne.symm hr)]

/-- Witness for C6 (amended): the `ipython` override buckets an ipython
message under its own name, and a message with the unrecognized role `tool`
renders to nothing through the llama3 sections. -/
theorem grouping_by_role_value_witness :
    ("ipython", (["print"] : List String))
      ∈ groupMessage (mkRoles [("ipython", some "ipython")]) ⟨"ipython", "print"⟩ ∧
    renderRecord llama3.template.sections
      (groupMessage (mkRoles []) ⟨"tool", "x"⟩) = "" := by
  constructor
  · have h := (grouping_by_role_value [("ipython", some "ipython")] []).2.1
      ⟨"ipython", "print"⟩ "ipython" "ipython" (by decide)
    simpa using h
  · exact (grouping_by_role_value [] []).2.2.2 ⟨"tool", "x"⟩ (by decide)
      llama3.template.sections

/-- C7: rendering a system, a user and an assistant message through the llama3
template yields the three texts wrapped in their role's literal header markers
in input order, the string ending with an open assistant header, after which
no stop marker (the end-of-turn id) occurs. -/
theorem llama3_render_shape (s u a : String) :
    messagesToPrompt llama3 [⟨"system", s⟩, ⟨"user", u⟩, ⟨"assistant", a⟩]
      = "<|begin_of_text|><|start_header_id|>system<|end_header_id|>\n\n" ++ s
        ++ "<|eot_id|>"
        ++ "<|start_header_id|>user<|end_header_id|>\n\n" ++ u
        ++ "<|eot_id|>"
        ++ "<|start_header_id|>assistant<|end_header_id|>\n\n" ++ a
        ++ "<|eot_id|>"
        ++ "<|start_header_id|>assistant<|end_header_id|>\n" ∧
    occursIn "<|eot_id|>".toList
      "<|start_header_id|>assistant<|end_header_id|>\n".toList = false := by
  constructor
  · simp [-String.reduceAppend, messagesToPrompt, llama3, mkRoles, defaultRoles,
      spreadRecord, pickDefined, groupMessages, groupMessage, renderPrompt,
      renderRecord, renderTexts, lookupBucket, List.lookup_cons,
      String.append_assoc, String.append_empty, String.empty_append]
  · decide

end BeeChatTemplates

namespace BeeInstrumentation

/-- C8: the ignored-keys list is the environment value split on commas with
empty entries dropped: an unset variable yields the empty list, the value
listing two names around a doubled comma yields exactly those names, and no
element of the result is ever the empty string. -/
theorem instrumentation_ignored_keys_spec :
    instrumentationIgnoredKeys none = [] ∧
    instrumentationIgnoredKeys (some "a,,b") = ["a", "b"] ∧
    ∀ env s, s ∈ instrumentationIgnoredKeys env → s ≠ "" := by
  refine ⟨by decide, by decide, ?_⟩
  intro env s hs
  have hlen := List.of_mem_filter hs
  intro hemp
  subst hemp
  simp at hlen

/-- Witness for C8: the doubled-comma value yields the two names, and the
first of them is non-empty. -/
theorem instrumentation_ignored_keys_spec_witness :
    instrumentationIgnoredKeys (some "a,,b") = ["a", "b"] ∧ ("a" : String) ≠ "" :=
  ⟨instrumentation_ignored_keys_spec.2.1,
   instrumentation_ignored_keys_spec.2.2 (some "a,,b") "a" (by decide)⟩

end BeeInstrumentation
